import Mathlib

/-!
Shallow embedding of the template-reference resolution pipeline in
`src/libraries/botbuilder-ai/src/lgResolver.ts` (classes
`LanguageGenerationResolver`, `PatternRecognizer`, `ActivityUtilities`,
`Utilities`, `LGRequestBuilder`).  JavaScript strings become `String`,
JavaScript numbers become `Rat` (integrality = denominator 1, matching
`_.isInteger`), `Date` values carry their ISO-8601 rendering, maps and
plain objects become insertion-ordered association lists, and thrown
exceptions become `Except String`.  Mutation of the activity object is
modelled by explicit state passing: `resolve` returns the final state of
the activity next to its outcome.
-/

/-- A JavaScript `Date`, modelled by the ISO-8601 string that
`toISOString` would produce. -/
structure JSDate where
  iso : String
deriving DecidableEq, Repr

/-- A JavaScript runtime value handed to the slot encoder.  The source
type `PrimitiveType` is `string | number | boolean | Date`; `other`
stands for any further runtime value (null, object, array), which the
type system of the source does not actually rule out at runtime. -/
inductive JSValue where
  | str (s : String)
  | num (q : Rat)
  | bool (b : Bool)
  | date (d : JSDate)
  | other
deriving DecidableEq, Repr

/-- JavaScript number-to-string conversion used by the model (the exact
digit rendering is irrelevant to the claims; what matters is that encode
and decode use the same rendering). -/
def numToString (q : Rat) : String :=
  if q.den = 1 then toString q.num else toString q.num ++ "/" ++ toString q.den

/-- The string form of a supported value, as in the round-trip property
of the spec (dates render as their ISO-8601 string). -/
def JSValue.stringForm : JSValue → String
  | .str s => s
  | .num q => numToString q
  | .bool b => if b then "true" else "false"
  | .date d => d.iso
  | .other => "[object Object]"

/-- The fields of `CardAction` that the pipeline reads or writes. -/
structure CardAction where
  text : Option String := none
  displayText : Option String := none
deriving DecidableEq, Repr

/-- The `SuggestedActions` record: its action list. -/
structure SuggestedActions where
  actions : List CardAction := []
deriving DecidableEq, Repr

/-- The fields of `Activity` that the pipeline reads or writes. -/
structure Activity where
  text : Option String := none
  speak : Option String := none
  locale : Option String := none
  suggestedActions : Option SuggestedActions := none
deriving DecidableEq, Repr

/-- The `Slot` class: a (key, value) pair. -/
structure Slot where
  key : String
  value : JSValue
deriving DecidableEq, Repr

/-- `Slot.STATE_NAME_KEY`. -/
def Slot.STATE_NAME_KEY : String := "GetStateName"

/-- The `ILGValue` wire record: a numeric kind tag plus five optional
singleton arrays.  The interface comments in the source document the
correspondence valueType 0 ↔ stringValues, 1 ↔ intValues,
2 ↔ floatValues, 3 ↔ booleanValues, 4 ↔ dateTimeValues. -/
structure ILGValue where
  valueType : Nat
  stringValues : Option (List String) := none
  intValues : Option (List Rat) := none
  floatValues : Option (List Rat) := none
  booleanValues : Option (List Bool) := none
  dateTimeValues : Option (List String) := none
deriving DecidableEq, Repr

/-- The `ILGRequest` wire record. -/
structure ILGRequest where
  locale : Option String
  scenario : String
  slots : List (String × ILGValue)
deriving DecidableEq, Repr

/-- The `ILGResponse` wire record; `outputs` is a plain object modelled
as an insertion-ordered association list. -/
structure ILGResponse where
  outputs : List (String × ILGValue)
deriving DecidableEq, Repr

/-!
## PatternRecognizer

`extractPatterns` repeatedly runs the global regex
`/[^[\]]+(?=])/g` on the text.  A match of that regex is a maximal
nonempty run of characters other than `[` and `]` that is immediately
followed by `]` (the lookahead); successive `exec` calls yield the
matches left to right.  The scan below is the direct transliteration:
it walks the characters once, accumulating the current run of
non-bracket characters (in reverse), emitting it when a `]` follows and
discarding it at a `[`.
-/

/-- One left-to-right pass of the extraction regex: `run` is the current
(reversed) run of non-bracket characters. -/
def extractAux : List Char → List Char → List String
  | [], _ => []
  | c :: rest, run =>
    if c = ']' then
      match run with
      | [] => extractAux rest []
      | _ :: _ => String.mk run.reverse :: extractAux rest []
    else if c = '[' then extractAux rest []
    else extractAux rest (c :: run)

/-- `PatternRecognizer.extractPatterns`. -/
def PatternRecognizer.extractPatterns (text : String) : List String :=
  extractAux text.data []

/-- First-occurrence literal substring replacement, the semantics of the
native `String.prototype.replace` with a string pattern that lodash
`replace` delegates to (replacement strings are treated literally; none
of the theorems below use `$`-escapes). -/
def listReplaceFirst (pat repl : List Char) : List Char → List Char
  | [] => if pat.isPrefixOf [] then repl else []
  | c :: rest =>
    if pat.isPrefixOf (c :: rest) then repl ++ (c :: rest).drop pat.length
    else c :: listReplaceFirst pat repl rest

/-- `PatternRecognizer.constructTemplateReference`. -/
def PatternRecognizer.constructTemplateReference (text : String) : String :=
  "[" ++ text ++ "]"

/-- `PatternRecognizer.replacePatterns`: folds over the resolution table
in insertion order, each step replacing (per lodash `replace`) the first
occurrence of `[templateReference]` in the current text. -/
def PatternRecognizer.replacePatterns (originalText : String)
    (templateResolutions : List (String × String)) : String :=
  templateResolutions.foldl
    (fun modifiedText p =>
      String.mk (listReplaceFirst
        (PatternRecognizer.constructTemplateReference p.1).data p.2.data
        modifiedText.data))
    originalText

/-!
## Utilities (value codec)
-/

/-- `Utilities.convertLGValueToString`.  Reading element 0 of an absent
array (or calling `toString` on the resulting `undefined`) throws a
`TypeError` at runtime; those crashes are modelled as errors.  In the
`valueType = 0` case an empty present array returns the `undefined`
value itself without crashing. -/
def Utilities.convertLGValueToString (value : ILGValue) : Except String String :=
  match value.valueType with
  | 0 =>
    match value.stringValues with
    | some l => .ok (l.headD "undefined")
    | none => .error "TypeError"
  | 1 =>
    match value.intValues with
    | some (x :: _) => .ok (numToString x)
    | _ => .error "TypeError"
  | 2 =>
    match value.floatValues with
    | some (x :: _) => .ok (numToString x)
    | _ => .error "TypeError"
  | 3 =>
    match value.booleanValues with
    | some (b :: _) => .ok (if b then "true" else "false")
    | _ => .error "TypeError"
  | 4 =>
    match value.dateTimeValues with
    | some (s :: _) => .ok s
    | _ => .error "TypeError"
  | _ => .error "Internal Error"

/-- `Utilities.convertSlotToLGValue`, branch for branch as in the
source: the non-integral-number branch populates `intValues` (not
`floatValues`) with `valueType` 2, and the `Date` branch uses
`valueType` 3 (not 4); the final fallthrough throws `new Error` with an
empty message. -/
def Utilities.convertSlotToLGValue (slot : Slot) : Except String ILGValue :=
  match slot.value with
  | .str s => .ok { valueType := 0, stringValues := some [s] }
  | .num q =>
    if q.den = 1 then .ok { valueType := 1, intValues := some [q] }
    else .ok { valueType := 2, intValues := some [q] }
  | .bool b => .ok { valueType := 3, booleanValues := some [b] }
  | .date d => .ok { valueType := 3, dateTimeValues := some [d.iso] }
  | .other => .error ""

/-!
## Activity inspectors and injectors
-/

/-- `textInspector`: the text field, defaulted to the empty string when
falsy, then extraction. -/
def textInspector (activity : Activity) : List String :=
  PatternRecognizer.extractPatterns (activity.text.getD "")

/-- `speakInspector`. -/
def speakInspector (activity : Activity) : List String :=
  PatternRecognizer.extractPatterns (activity.speak.getD "")

/-- The `if (action.text)` arm of the reducer inside
`suggestedActionsInspector`: for a truthy field the source performs
`acc = [...acc, ...acc.concat(extractPatterns(action.text))]`, i.e. the
new accumulator is `acc ++ (acc ++ patterns)` — the accumulator is
duplicated before the new patterns are appended. -/
def suggestedActionsTextStep (acc : List String) (action : CardAction) : List String :=
  match action.text with
  | some t => if t = "" then acc else acc ++ (acc ++ PatternRecognizer.extractPatterns t)
  | none => acc

/-- The `if (action.displayText)` arm of the same reducer. -/
def suggestedActionsDisplayStep (acc : List String) (action : CardAction) : List String :=
  match action.displayText with
  | some d => if d = "" then acc else acc ++ (acc ++ PatternRecognizer.extractPatterns d)
  | none => acc

/-- One step of the reducer inside `suggestedActionsInspector`: the text
arm followed by the display-text arm. -/
def suggestedActionsStep (acc : List String) (action : CardAction) : List String :=
  suggestedActionsDisplayStep (suggestedActionsTextStep acc action) action

/-- `suggestedActionsInspector`. -/
def suggestedActionsInspector (activity : Activity) : List String :=
  match activity.suggestedActions with
  | none => []
  | some sa => sa.actions.foldl suggestedActionsStep []

/-- First-seen-order deduplication, the behaviour of iterating a
JavaScript `Set` built from a list (`seen` holds the names already
emitted). -/
def dedupFirstAux (seen : List String) : List String → List String
  | [] => []
  | x :: xs =>
    if x ∈ seen then dedupFirstAux seen xs
    else x :: dedupFirstAux (x :: seen) xs

/-- Deduplicate keeping the first occurrence of each name. -/
def dedupFirst (l : List String) : List String :=
  dedupFirstAux [] l

/-- `ActivityUtilities.convertEntitiesToSlots`: the body is exactly
`throw new Error` with the message `Method not implemented.` -/
def ActivityUtilities.convertEntitiesToSlots
    (_entities : List (String × JSValue)) : Except String (List Slot) :=
  .error "Method not implemented."

/-- `ActivityUtilities.extractTemplateReferencesSlots`: concatenates the
three inspectors, deduplicates via `new Set` (insertion order), and
builds one `Slot` with key `STATE_NAME_KEY` per name. -/
def ActivityUtilities.extractTemplateReferencesSlots (activity : Activity) : List Slot :=
  let inspectors :=
    textInspector activity ++ speakInspector activity ++ suggestedActionsInspector activity
  (dedupFirst inspectors).map (fun stateName => Slot.mk Slot.STATE_NAME_KEY (.str stateName))

/-- `textInjector`: rewrites `activity.text` when that field is truthy
(present and nonempty). -/
def textInjector (activity : Activity) (table : List (String × String)) : Activity :=
  match activity.text with
  | some t =>
    if t = "" then activity
    else { activity with text := some (PatternRecognizer.replacePatterns t table) }
  | none => activity

/-- `speakInjector`. -/
def speakInjector (activity : Activity) (table : List (String × String)) : Activity :=
  match activity.speak with
  | some t =>
    if t = "" then activity
    else { activity with speak := some (PatternRecognizer.replacePatterns t table) }
  | none => activity

/-- The `if (action.text)` block of the per-action body of
`suggestedActionsInjector`. -/
def injectCardActionText (table : List (String × String)) (action : CardAction) : CardAction :=
  match action.text with
  | some t =>
    if t = "" then action
    else { action with text := some (PatternRecognizer.replacePatterns t table) }
  | none => action

/-- The `if (action.displayText)` block of the per-action body of
`suggestedActionsInjector`. -/
def injectCardActionDisplay (table : List (String × String)) (action : CardAction) : CardAction :=
  match action.displayText with
  | some d =>
    if d = "" then action
    else { action with displayText := some (PatternRecognizer.replacePatterns d table) }
  | none => action

/-- The per-action body of `suggestedActionsInjector`: the text block
followed by the display-text block. -/
def injectCardAction (table : List (String × String)) (action : CardAction) : CardAction :=
  injectCardActionDisplay table (injectCardActionText table action)

/-- `suggestedActionsInjector`. -/
def suggestedActionsInjector (activity : Activity) (table : List (String × String)) : Activity :=
  match activity.suggestedActions with
  | none => activity
  | some sa =>
    { activity with
      suggestedActions := some { sa with actions := sa.actions.map (injectCardAction table) } }

/-- `ActivityUtilities.injectResponses`: runs the three injectors in
order on the activity. -/
def ActivityUtilities.injectResponses (activity : Activity)
    (templateReferences : List (String × String)) : Activity :=
  suggestedActionsInjector
    (speakInjector (textInjector activity templateReferences) templateReferences)
    templateReferences

/-!
## LGRequestBuilder and the resolver
-/

/-- JavaScript object index assignment `acc[k] = v` on an
insertion-ordered association list: overwrite in place if the key
exists, else append. -/
def objSet (m : List (String × ILGValue)) (k : String) (v : ILGValue) :
    List (String × ILGValue) :=
  if m.any (fun p => p.1 = k) then m.map (fun p => if p.1 = k then (k, v) else p)
  else m ++ [(k, v)]

/-- JavaScript `Map.prototype.set` on an insertion-ordered association
list. -/
def mapSet (m : List (String × String)) (k v : String) : List (String × String) :=
  if m.any (fun p => p.1 = k) then m.map (fun p => if p.1 = k then (k, v) else p)
  else m ++ [(k, v)]

/-- `LGRequestBuilder` fully applied: `setScenario`, `setLocale`,
`setSlots`, `build`.  The reduce inside `build` encodes each slot via
the value codec (propagating its exception) and assembles the `slots`
object. -/
def LGRequestBuilder.build (scenario : String) (locale : Option String)
    (slots : List Slot) : Except String ILGRequest := do
  let slotsJSON ← slots.foldlM
    (fun acc slot => do
      let lgValue ← Utilities.convertSlotToLGValue slot
      pure (objSet acc slot.key lgValue))
    ([] : List (String × ILGValue))
  pure (ILGRequest.mk locale scenario slotsJSON)

/-- The `responses.forEach` loop of `resolve`: for each response, take
the first key of `outputs` and decode its value into the resolution
table.  An empty `outputs` object makes the decoder dereference
`undefined` (a `TypeError` crash). -/
def foldResponses (responses : List ILGResponse) :
    Except String (List (String × String)) :=
  responses.foldlM
    (fun table lgRes =>
      match lgRes.outputs with
      | [] => .error "TypeError"
      | (templateReference, v) :: _ => do
        let s ← Utilities.convertLGValueToString v
        pure (mapSet table templateReference s))
    ([] : List (String × String))

/-- `LanguageGenerationResolver.resolve`.  The network is abstracted by
the `fetch` oracle (one `Except` outcome per request, the first error
standing for the `Promise.all` rejection); `lgAppId` is the scenario
from the endpoint.  The second component of the result is the final
state of the (caller-owned, mutable) activity: it equals the input
activity unless injection ran. -/
def LanguageGenerationResolver.resolve
    (fetch : ILGRequest → Except String ILGResponse) (lgAppId : String)
    (activity : Option Activity) (entities : Option (List (String × JSValue))) :
    Except String Unit × Option Activity :=
  match activity with
  | none => (.error "Activity can\x27t be null or undefined", none)
  | some act =>
    match entities with
    | none => (.error "Entities can\x27t be null or undefined", some act)
    | some ents =>
      let templateReferencesSlots := ActivityUtilities.extractTemplateReferencesSlots act
      match ActivityUtilities.convertEntitiesToSlots ents with
      | .error e => (.error e, some act)
      | .ok entitiesSlots =>
        match templateReferencesSlots.mapM
          (fun trSlot => LGRequestBuilder.build lgAppId act.locale (trSlot :: entitiesSlots)) with
        | .error e => (.error e, some act)
        | .ok requests =>
          match requests.mapM fetch with
          | .error e => (.error e, some act)
          | .ok responses =>
            match foldResponses responses with
            | .error e => (.error e, some act)
            | .ok table => (.ok (), some (ActivityUtilities.injectResponses act table))

/-!
## Spec-side definitions (for the refinement claim C8)
-/

/-- Modelled from the spec: the references one suggested action
contributes — its text then its display text, absent fields contributing
nothing. -/
def specActionRefs (action : CardAction) : List String :=
  (action.text.map PatternRecognizer.extractPatterns).getD [] ++
    (action.displayText.map PatternRecognizer.extractPatterns).getD []

/-- Modelled from the spec: the references contributed by the suggested
actions, each action in list order, absent action lists contributing
nothing. -/
def specSuggestedRefs (activity : Activity) : List String :=
  match activity.suggestedActions with
  | none => []
  | some sa => (sa.actions.map specActionRefs).flatten

/-- Modelled from the spec: run the three field extractors in fixed
order (primary text, spoken text, for each action the text then the display text
in list order), concatenate, deduplicate preserving first-seen order. -/
def specExtractReferences (activity : Activity) : List String :=
  dedupFirst
    ((activity.text.map PatternRecognizer.extractPatterns).getD [] ++
      (activity.speak.map PatternRecognizer.extractPatterns).getD [] ++
      specSuggestedRefs activity)

/-- The references the text arm contributes when its guard passes. -/
def cardTextRefs (action : CardAction) : List String :=
  match action.text with
  | some t => if t = "" then [] else PatternRecognizer.extractPatterns t
  | none => []

/-- The references the display-text arm contributes when its guard
passes. -/
def cardDisplayRefs (action : CardAction) : List String :=
  match action.displayText with
  | some d => if d = "" then [] else PatternRecognizer.extractPatterns d
  | none => []

/-!
## Helper lemmas about first-seen deduplication
-/

/-- Extraction from the empty string is empty. -/
theorem extractPatterns_empty : PatternRecognizer.extractPatterns "" = [] := rfl

/-- `dedupFirstAux` only depends on the membership of `seen`. -/
theorem dedupFirstAux_congr (l : List String) :
    ∀ seen₁ seen₂ : List String, (∀ y, y ∈ seen₁ ↔ y ∈ seen₂) →
      dedupFirstAux seen₁ l = dedupFirstAux seen₂ l := by
  induction l with
  | nil => intro _ _ _; rfl
  | cons x xs ih =>
    intro seen₁ seen₂ h
    simp only [dedupFirstAux]
    by_cases hx : x ∈ seen₁
    · rw [if_pos hx, if_pos ((h x).mp hx), ih seen₁ seen₂ h]
    · rw [if_neg hx, if_neg (fun hc => hx ((h x).mpr hc)),
        ih (x :: seen₁) (x :: seen₂) (by intro y; simp [h y])]

/-- Splitting a `dedupFirstAux` scan at an append: the second half runs
with the first half added to the seen set. -/
theorem dedupFirstAux_append (xs : List String) :
    ∀ seen ys : List String,
      dedupFirstAux seen (xs ++ ys) =
        dedupFirstAux seen xs ++ dedupFirstAux (xs ++ seen) ys := by
  induction xs with
  | nil => intro seen ys; simp [dedupFirstAux]
  | cons x xs ih =>
    intro seen ys
    simp only [List.cons_append, dedupFirstAux, List.append_eq]
    by_cases hx : x ∈ seen
    · rw [if_pos hx, if_pos hx, ih seen ys]
      congr 1
      apply dedupFirstAux_congr
      intro y
      simp only [List.cons_append, List.mem_cons, List.mem_append]
      constructor
      · exact fun h => Or.inr h
      · rintro (rfl | h)
        · exact Or.inr hx
        · exact h
    · rw [if_neg hx, if_neg hx, ih (x :: seen) ys, List.cons_append]
      congr 2
      apply dedupFirstAux_congr
      intro y
      simp only [List.cons_append, List.mem_cons, List.mem_append]
      tauto

/-- A block whose elements are all already seen contributes nothing. -/
theorem dedupFirstAux_skip (xs : List String) :
    ∀ seen ys : List String, (∀ x ∈ xs, x ∈ seen) →
      dedupFirstAux seen (xs ++ ys) = dedupFirstAux seen ys := by
  induction xs with
  | nil => intro _ _ _; rfl
  | cons x xs ih =>
    intro seen ys h
    simp only [List.cons_append, dedupFirstAux]
    rw [if_pos (h x (List.mem_cons_self x xs))]
    exact ih seen ys (fun z hz => h z (List.mem_cons_of_mem x hz))

/-- Duplicating a block in front of itself does not change the
first-seen deduplication. -/
theorem dedupFirstAux_dup (seen acc tail : List String) :
    dedupFirstAux seen (acc ++ (acc ++ tail)) = dedupFirstAux seen (acc ++ tail) := by
  rw [dedupFirstAux_append acc seen (acc ++ tail), dedupFirstAux_append acc seen tail]
  congr 1
  exact dedupFirstAux_skip acc (acc ++ seen) tail
    (fun x hx => List.mem_append_left seen hx)

/-- `dedupFirstAux_dup` with a trailing block. -/
theorem dedupFirstAux_dup_append (seen acc g z : List String) :
    dedupFirstAux seen ((acc ++ (acc ++ g)) ++ z) =
      dedupFirstAux seen ((acc ++ g) ++ z) := by
  have h1 : (acc ++ (acc ++ g)) ++ z = acc ++ (acc ++ (g ++ z)) := by
    simp [List.append_assoc]
  have h2 : (acc ++ g) ++ z = acc ++ (g ++ z) := by simp [List.append_assoc]
  rw [h1, h2, dedupFirstAux_dup]

/-- Congruence for `dedupFirstAux` across a common prefix. -/
theorem dedupFirstAux_append_congr (xs ys₁ ys₂ : List String)
    (h : ∀ seen, dedupFirstAux seen ys₁ = dedupFirstAux seen ys₂) :
    ∀ seen, dedupFirstAux seen (xs ++ ys₁) = dedupFirstAux seen (xs ++ ys₂) := by
  intro seen
  rw [dedupFirstAux_append, dedupFirstAux_append, h]

/-- The text arm of the reducer, seen through `dedupFirstAux`: its
self-duplication collapses to appending the guarded references. -/
theorem dedupFirstAux_text_step (action : CardAction) (seen acc z : List String) :
    dedupFirstAux seen (suggestedActionsTextStep acc action ++ z) =
      dedupFirstAux seen ((acc ++ cardTextRefs action) ++ z) := by
  obtain ⟨t, d⟩ := action
  cases t with
  | none => simp [suggestedActionsTextStep, cardTextRefs]
  | some tv =>
    by_cases ht : tv = ""
    · simp [suggestedActionsTextStep, cardTextRefs, ht]
    · simp only [suggestedActionsTextStep, cardTextRefs, if_neg ht]
      rw [dedupFirstAux_dup_append]

/-- The display-text arm of the reducer, seen through `dedupFirstAux`. -/
theorem dedupFirstAux_display_step (action : CardAction) (seen acc z : List String) :
    dedupFirstAux seen (suggestedActionsDisplayStep acc action ++ z) =
      dedupFirstAux seen ((acc ++ cardDisplayRefs action) ++ z) := by
  obtain ⟨t, d⟩ := action
  cases d with
  | none => simp [suggestedActionsDisplayStep, cardDisplayRefs]
  | some dv =>
    by_cases hd : dv = ""
    · simp [suggestedActionsDisplayStep, cardDisplayRefs, hd]
    · simp only [suggestedActionsDisplayStep, cardDisplayRefs, if_neg hd]
      rw [dedupFirstAux_dup_append]

/-- One full reducer step, seen through `dedupFirstAux`. -/
theorem dedupFirstAux_step (action : CardAction) (seen acc z : List String) :
    dedupFirstAux seen (suggestedActionsStep acc action ++ z) =
      dedupFirstAux seen (acc ++ ((cardTextRefs action ++ cardDisplayRefs action) ++ z)) := by
  rw [suggestedActionsStep, dedupFirstAux_display_step,
    List.append_assoc (suggestedActionsTextStep acc action),
    dedupFirstAux_text_step]
  simp only [List.append_assoc]

/-- The whole reducer fold, seen through `dedupFirstAux`: it is the
plain concatenation of the guarded references of each action. -/
theorem dedupFirstAux_fold (actions : List CardAction) :
    ∀ acc seen : List String,
      dedupFirstAux seen (actions.foldl suggestedActionsStep acc) =
        dedupFirstAux seen
          (acc ++ (actions.map (fun a => cardTextRefs a ++ cardDisplayRefs a)).flatten) := by
  induction actions with
  | nil => intro acc seen; simp
  | cons action rest ih =>
    intro acc seen
    rw [List.foldl_cons, ih, List.map_cons, List.flatten_cons]
    have h := dedupFirstAux_step action seen acc
      ((rest.map (fun a => cardTextRefs a ++ cardDisplayRefs a)).flatten)
    rw [h]

/-- The guarded per-action references coincide with the spec-side
per-action references (an empty string field contributes nothing either
way). -/
theorem cardRefs_eq_spec (action : CardAction) :
    cardTextRefs action ++ cardDisplayRefs action = specActionRefs action := by
  obtain ⟨t, d⟩ := action
  cases t with
  | none =>
    cases d with
    | none => rfl
    | some dv =>
      by_cases hd : dv = "" <;>
        simp [cardTextRefs, cardDisplayRefs, specActionRefs, hd, extractPatterns_empty]
  | some tv =>
    cases d with
    | none =>
      by_cases ht : tv = "" <;>
        simp [cardTextRefs, cardDisplayRefs, specActionRefs, ht, extractPatterns_empty]
    | some dv =>
      by_cases ht : tv = "" <;> by_cases hd : dv = "" <;>
        simp [cardTextRefs, cardDisplayRefs, specActionRefs, ht, hd, extractPatterns_empty]

/-- `textInspector` agrees with the spec-side contribution of the
primary text field. -/
theorem textInspector_eq_spec (a : Activity) :
    textInspector a = (a.text.map PatternRecognizer.extractPatterns).getD [] := by
  cases h : a.text <;> simp [textInspector, h, extractPatterns_empty]

/-- `speakInspector` agrees with the spec-side contribution of the
spoken text field. -/
theorem speakInspector_eq_spec (a : Activity) :
    speakInspector a = (a.speak.map PatternRecognizer.extractPatterns).getD [] := by
  cases h : a.speak <;> simp [speakInspector, h, extractPatterns_empty]

/-- `suggestedActionsInspector`, seen through `dedupFirstAux`, agrees
with the spec-side flat concatenation over the action list. -/
theorem suggestedActionsInspector_eq_spec (a : Activity) (seen : List String) :
    dedupFirstAux seen (suggestedActionsInspector a) =
      dedupFirstAux seen (specSuggestedRefs a) := by
  cases h : a.suggestedActions with
  | none => simp [suggestedActionsInspector, specSuggestedRefs, h]
  | some sa =>
    simp only [suggestedActionsInspector, specSuggestedRefs, h]
    rw [dedupFirstAux_fold sa.actions [] seen, List.nil_append]
    have hmap : (fun a => cardTextRefs a ++ cardDisplayRefs a) = specActionRefs :=
      funext cardRefs_eq_spec
    rw [hmap]

/-!
## Helper lemmas about injection
-/

/-- Replacement with an empty resolution table is the identity. -/
theorem replacePatterns_empty_table (t : String) :
    PatternRecognizer.replacePatterns t [] = t := rfl

/-- `textInjector` with an empty table is the identity. -/
theorem textInjector_empty (a : Activity) : textInjector a [] = a := by
  obtain ⟨t, sp, loc, sa⟩ := a
  cases t with
  | none => rfl
  | some tv =>
    show (if tv = "" then _ else _) = _
    split <;> rfl

/-- `speakInjector` with an empty table is the identity. -/
theorem speakInjector_empty (a : Activity) : speakInjector a [] = a := by
  obtain ⟨t, sp, loc, sa⟩ := a
  cases sp with
  | none => rfl
  | some sv =>
    show (if sv = "" then _ else _) = _
    split <;> rfl

/-- `injectCardActionText` with an empty table is the identity. -/
theorem injectCardActionText_empty (action : CardAction) :
    injectCardActionText [] action = action := by
  obtain ⟨t, d⟩ := action
  cases t with
  | none => rfl
  | some tv =>
    show (if tv = "" then _ else _) = _
    split <;> rfl

/-- `injectCardActionDisplay` with an empty table is the identity. -/
theorem injectCardActionDisplay_empty (action : CardAction) :
    injectCardActionDisplay [] action = action := by
  obtain ⟨t, d⟩ := action
  cases d with
  | none => rfl
  | some dv =>
    show (if dv = "" then _ else _) = _
    split <;> rfl

/-- `injectCardAction` with an empty table is the identity. -/
theorem injectCardAction_empty (action : CardAction) :
    injectCardAction [] action = action := by
  rw [injectCardAction, injectCardActionText_empty, injectCardActionDisplay_empty]

/-- Mapping the empty-table per-action injector is the identity. -/
theorem map_injectCardAction_empty (l : List CardAction) :
    l.map (injectCardAction []) = l := by
  induction l with
  | nil => rfl
  | cons action rest ih => simp [injectCardAction_empty, ih]

/-- `suggestedActionsInjector` with an empty table is the identity. -/
theorem suggestedActionsInjector_empty (a : Activity) :
    suggestedActionsInjector a [] = a := by
  obtain ⟨t, sp, loc, sa⟩ := a
  cases sa with
  | none => rfl
  | some sas =>
    obtain ⟨actions⟩ := sas
    simp only [suggestedActionsInjector, map_injectCardAction_empty]

/-!
## Helper lemmas about first-occurrence replacement
-/

/-- A list is a `isPrefixOf` itself followed by anything. -/
theorem isPrefixOf_append_self (l t : List Char) : l.isPrefixOf (l ++ t) = true := by
  induction l with
  | nil => simp [List.isPrefixOf]
  | cons c l ih => simp [List.isPrefixOf, ih]

/-- Replacement fires at the leftmost occurrence: scanning a prefix that
contains no `[` cannot match a pattern that starts with `[`, so the
marked occurrence is the one replaced. -/
theorem listReplaceFirst_marker (k repl : List Char) :
    ∀ p t : List Char, '[' ∉ p →
      listReplaceFirst ('[' :: k) repl (p ++ ('[' :: k) ++ t) = p ++ repl ++ t := by
  intro p
  induction p with
  | nil =>
    intro t _
    simp only [List.nil_append]
    rw [show ('[' :: k) ++ t = '[' :: (k ++ t) from rfl]
    simp only [listReplaceFirst]
    rw [if_pos ?hpre]
    case hpre =>
      rw [show ('[' :: (k ++ t)) = ('[' :: k) ++ t from rfl]
      exact isPrefixOf_append_self ('[' :: k) t
    rw [show ('[' :: (k ++ t)) = ('[' :: k) ++ t from rfl, List.drop_left]
  | cons c p ih =>
    intro t hp
    have hc : c ≠ '[' := by
      intro h
      exact hp (h ▸ List.mem_cons_self c p)
    have hp2 : '[' ∉ p := fun h => hp (List.mem_cons_of_mem c h)
    simp only [List.cons_append, listReplaceFirst, List.append_eq]
    rw [if_neg ?hnot]
    case hnot =>
      simp only [List.isPrefixOf, Bool.and_eq_true, beq_iff_eq]
      rintro ⟨h, -⟩
      exact hc h.symm
    rw [ih t hp2]

/-- String-level form of `listReplaceFirst_marker` for a bracketed
template reference: one `replacePatterns` fold step on a table entry
`(n, repl)` rewrites the marked first occurrence of `[n]`. -/
theorem replaceFirst_bracket (p n rest repl : String) (hp : '[' ∉ p.data) :
    String.mk (listReplaceFirst
        (PatternRecognizer.constructTemplateReference n).data repl.data
        (p ++ "[" ++ n ++ "]" ++ rest).data) =
      p ++ repl ++ rest := by
  have hpat : (PatternRecognizer.constructTemplateReference n).data =
      '[' :: (n.data ++ [']']) := by
    simp [PatternRecognizer.constructTemplateReference, String.data_append]
  have htext : (p ++ "[" ++ n ++ "]" ++ rest).data =
      p.data ++ ('[' :: (n.data ++ [']'])) ++ rest.data := by
    simp [String.data_append]
  rw [hpat, htext, listReplaceFirst_marker (n.data ++ [']']) repl.data p.data rest.data hp]
  apply String.ext
  simp [String.data_append]

/-!
## Helper lemmas about pattern extraction
-/

/-- Scanning up to a `[` splits the scan: the `[` discards the current
run, so everything after it is scanned from a fresh state. -/
theorem extractAux_split_bracket :
    ∀ p run s : List Char,
      extractAux (p ++ '[' :: s) run = extractAux (p ++ ['[']) run ++ extractAux s [] := by
  intro p
  induction p with
  | nil =>
    intro run s
    simp [extractAux]
  | cons c p ih =>
    intro run s
    simp only [List.cons_append, extractAux, List.append_eq]
    by_cases h1 : c = ']'
    · rw [if_pos h1, if_pos h1]
      cases run with
      | nil => exact ih [] s
      | cons r rs =>
        simp only []
        rw [ih [] s, List.cons_append]
    · rw [if_neg h1, if_neg h1]
      by_cases h2 : c = '['
      · rw [if_pos h2, if_pos h2]
        exact ih [] s
      · rw [if_neg h2, if_neg h2]
        exact ih (c :: run) s

/-- Scanning a run of non-bracket characters only accumulates them. -/
theorem extractAux_accumulate :
    ∀ n run s : List Char, (∀ c ∈ n, c ≠ '[' ∧ c ≠ ']') →
      extractAux (n ++ s) run = extractAux s (n.reverse ++ run) := by
  intro n
  induction n with
  | nil => intro run s _; simp
  | cons c n ih =>
    intro run s h
    have hc := h c (List.mem_cons_self c n)
    simp only [List.cons_append, extractAux, if_neg hc.2, if_neg hc.1, List.append_eq]
    rw [ih (c :: run) s (fun x hx => h x (List.mem_cons_of_mem c hx))]
    simp [List.append_assoc]

/-- Emitting a completed run at a closing bracket. -/
theorem extractAux_emit (r : Char) (rs s : List Char) :
    extractAux (']' :: s) (r :: rs) = String.mk (r :: rs).reverse :: extractAux s [] := by
  simp [extractAux]

/-!
## Claims
-/

/-- C1: for every non-null activity and non-null entities map with at
least one entry, `resolve` throws the unimplemented-method error raised
by `ActivityUtilities.convertEntitiesToSlots`, before any request is
built or dispatched (the outcome is the same for every fetch oracle),
and the activity is left unmodified; consequently no invocation of
`resolve` with a non-empty entities map can ever succeed. -/
theorem resolve_nonempty_entities_always_throws
    (fetch : ILGRequest → Except String ILGResponse) (lgAppId : String)
    (a : Activity) (ents : List (String × JSValue)) (hne : ents ≠ []) :
    LanguageGenerationResolver.resolve fetch lgAppId (some a) (some ents) =
      (.error "Method not implemented.", some a) := rfl

/-- Witness for C1 at a concrete activity, entities map and oracle. -/
theorem resolve_nonempty_entities_always_throws_witness :
    LanguageGenerationResolver.resolve (fun _ => .error "ServiceError") "appId"
        (some { text := some "[greet], John!" }) (some [("name", .str "John")]) =
      (.error "Method not implemented.", some { text := some "[greet], John!" }) :=
  resolve_nonempty_entities_always_throws _ _ _ _ (by simp)

/-- C2 counterexample: with message text `[greet]` (so the reference
`greet` is discovered) and a fetch oracle whose responses can never
mention `greet` (so the aggregated resolution table would necessarily
lack it), `resolve` rejects with the unimplemented-method error, which
is not an `IncompleteResolution` error; no completeness check is ever
reached. -/
theorem resolve_rejects_without_incomplete_resolution :
    LanguageGenerationResolver.resolve (fun _ => .ok (ILGResponse.mk []))
        "appId" (some { text := some "[greet]" }) (some []) =
      (.error "Method not implemented.", some { text := some "[greet]" }) ∧
    ("Method not implemented." : String) ≠ "IncompleteResolution" :=
  ⟨rfl, by decide⟩

/-- C2 (amended): the code performs no completeness validation and has
no `IncompleteResolution` error at all; every `resolve` call with
non-nil activity and entities rejects with the unimplemented-method
error before any resolution table is aggregated, and the message is
left unmodified (no injection is performed). -/
theorem resolve_never_reaches_completeness_check
    (fetch : ILGRequest → Except String ILGResponse) (lgAppId : String)
    (a : Activity) (ents : List (String × JSValue)) :
    LanguageGenerationResolver.resolve fetch lgAppId (some a) (some ents) =
      (.error "Method not implemented.", some a) := rfl

/-- C4: evaluation of `Utilities.convertSlotToLGValue` at a
non-integral number and at a `Date`.  The non-integral number is
encoded with `valueType` 2 but with `intValues` (not `floatValues`)
populated, and the `Date` is encoded with `valueType` 3 (the Boolean
tag, not the DateTime tag 4), contradicting the field-per-kind
correspondence documented on the `ILGValue` interface; strings,
integers and booleans are encoded as the claim states. -/
theorem convertSlotToLGValue_eval :
    Utilities.convertSlotToLGValue (Slot.mk "k" (.num (mkRat 3 2))) =
      .ok { valueType := 2, intValues := some [mkRat 3 2] } ∧
    Utilities.convertSlotToLGValue (Slot.mk "k" (.date ⟨"2020-01-01T00:00:00.000Z"⟩)) =
      .ok { valueType := 3, dateTimeValues := some ["2020-01-01T00:00:00.000Z"] } ∧
    Utilities.convertSlotToLGValue (Slot.mk "k" (.str "hi")) =
      .ok { valueType := 0, stringValues := some ["hi"] } ∧
    Utilities.convertSlotToLGValue (Slot.mk "k" (.num 7)) =
      .ok { valueType := 1, intValues := some [7] } ∧
    Utilities.convertSlotToLGValue (Slot.mk "k" (.bool true)) =
      .ok { valueType := 3, booleanValues := some [true] } ∧
    Utilities.convertSlotToLGValue (Slot.mk "k" .other) = .error "" :=
  ⟨rfl, rfl, rfl, rfl, rfl, rfl⟩

/-- C5: evaluation of the decode-after-encode round trip at each
supported kind.  It succeeds for strings, integers and booleans, but
for a non-integral number the decoder looks for `floatValues` (which
the encoder left empty) and for a `Date` it looks for `booleanValues`
(because the encoder tagged it 3), so both crash instead of returning
the string form of the value. -/
theorem roundtrip_eval :
    ((Utilities.convertSlotToLGValue (Slot.mk "k" (.str "hi"))).bind
        Utilities.convertLGValueToString = .ok (JSValue.stringForm (.str "hi"))) ∧
    ((Utilities.convertSlotToLGValue (Slot.mk "k" (.num 7))).bind
        Utilities.convertLGValueToString = .ok (JSValue.stringForm (.num 7))) ∧
    ((Utilities.convertSlotToLGValue (Slot.mk "k" (.bool true))).bind
        Utilities.convertLGValueToString = .ok (JSValue.stringForm (.bool true))) ∧
    ((Utilities.convertSlotToLGValue (Slot.mk "k" (.num (mkRat 3 2)))).bind
        Utilities.convertLGValueToString = .error "TypeError") ∧
    ((Utilities.convertSlotToLGValue
        (Slot.mk "k" (.date ⟨"2020-01-01T00:00:00.000Z"⟩))).bind
        Utilities.convertLGValueToString = .error "TypeError") :=
  ⟨rfl, rfl, rfl, rfl, rfl⟩

/-- C7: for every resolve call (non-nil activity and entities) whose
fetch oracle fails on at least one request, the entire call fails and
the message is left completely unmodified.  In the current code this
holds a fortiori: slot conversion throws before any request is
dispatched, so no fetch outcome is ever consulted and injection is
never reached. -/
theorem resolve_fails_and_leaves_message_unmodified
    (fetch : ILGRequest → Except String ILGResponse) (lgAppId : String)
    (a : Activity) (ents : List (String × JSValue))
    (hfail : ∃ req e, fetch req = .error e) :
    ∃ e, LanguageGenerationResolver.resolve fetch lgAppId (some a) (some ents) =
      (.error e, some a) :=
  ⟨"Method not implemented.", rfl⟩

/-- Witness for C7 at a concrete always-failing oracle. -/
theorem resolve_fails_and_leaves_message_unmodified_witness :
    ∃ e, LanguageGenerationResolver.resolve (fun _ => .error "401") "appId"
        (some { text := some "[greet], John!", speak := some "[greet] again" })
        (some []) =
      (.error e, some { text := some "[greet], John!", speak := some "[greet] again" }) :=
  resolve_fails_and_leaves_message_unmodified _ _ _ _
    ⟨ILGRequest.mk none "appId" [], "401", rfl⟩

/-- C10: `resolve` rejects a nil entities argument with the dedicated
error message, before doing any work, and the message is left
unmodified (for every fetch oracle and every non-nil activity). -/
theorem resolve_nil_entities_rejects
    (fetch : ILGRequest → Except String ILGResponse) (lgAppId : String)
    (a : Activity) :
    LanguageGenerationResolver.resolve fetch lgAppId (some a) none =
      (.error "Entities can\x27t be null or undefined", some a) := rfl

/-- C3 counterexample: with table {a→X, b→Y} on text containing two
occurrences of `[a]`, only the first occurrence is replaced: the result
is `X Y [a]`, not the `X Y X` the claim requires. -/
theorem replacePatterns_leaves_second_occurrence :
    PatternRecognizer.replacePatterns "[a] [b] [a]" [("a", "X"), ("b", "Y")] = "X Y [a]" ∧
    ("X Y [a]" : String) ≠ "X Y X" :=
  ⟨by decide, by decide⟩

/-- C3 (amended): `replacePatterns` replaces, for each reference in the
table in insertion order, only the FIRST occurrence of `[Reference]` in
the current text (lodash `replace` with a string pattern); later
occurrences — and references absent from the table — are left as the
original bracketed text.  For text of shape `…[a]…[b]…[a]…` with table
{a→X, b→Y} (the scanned prefixes and X free of `[`), the first `[a]`
becomes X, `[b]` becomes Y, and the second `[a]` survives unchanged. -/
theorem replacePatterns_first_occurrence_semantics
    (p q r s n₁ n₂ X Y : String)
    (hp : '[' ∉ p.data) (hq : '[' ∉ q.data) (hX : '[' ∉ X.data) :
    PatternRecognizer.replacePatterns
        (p ++ "[" ++ n₁ ++ "]" ++ (q ++ "[" ++ n₂ ++ "]" ++ (r ++ "[" ++ n₁ ++ "]" ++ s)))
        [(n₁, X), (n₂, Y)] =
      p ++ X ++ q ++ Y ++ (r ++ "[" ++ n₁ ++ "]" ++ s) := by
  have h1 := replaceFirst_bracket p n₁
    (q ++ "[" ++ n₂ ++ "]" ++ (r ++ "[" ++ n₁ ++ "]" ++ s)) X hp
  have hp2 : '[' ∉ (p ++ X ++ q).data := by
    simp only [String.data_append, List.mem_append]
    rintro ((h | h) | h)
    · exact hp h
    · exact hX h
    · exact hq h
  have h2 := replaceFirst_bracket (p ++ X ++ q) n₂
    (r ++ "[" ++ n₁ ++ "]" ++ s) Y hp2
  have hassoc : p ++ X ++ (q ++ "[" ++ n₂ ++ "]" ++ (r ++ "[" ++ n₁ ++ "]" ++ s)) =
      p ++ X ++ q ++ "[" ++ n₂ ++ "]" ++ (r ++ "[" ++ n₁ ++ "]" ++ s) := by
    apply String.ext
    simp [String.data_append, List.append_assoc]
  rw [show PatternRecognizer.replacePatterns
        (p ++ "[" ++ n₁ ++ "]" ++ (q ++ "[" ++ n₂ ++ "]" ++ (r ++ "[" ++ n₁ ++ "]" ++ s)))
        [(n₁, X), (n₂, Y)] =
      PatternRecognizer.replacePatterns
        (String.mk (listReplaceFirst
          (PatternRecognizer.constructTemplateReference n₁).data X.data
          (p ++ "[" ++ n₁ ++ "]" ++ (q ++ "[" ++ n₂ ++ "]" ++ (r ++ "[" ++ n₁ ++ "]" ++ s))).data))
        [(n₂, Y)] from rfl, h1]
  rw [show PatternRecognizer.replacePatterns
        (p ++ X ++ (q ++ "[" ++ n₂ ++ "]" ++ (r ++ "[" ++ n₁ ++ "]" ++ s))) [(n₂, Y)] =
      PatternRecognizer.replacePatterns
        (String.mk (listReplaceFirst
          (PatternRecognizer.constructTemplateReference n₂).data Y.data
          (p ++ X ++ (q ++ "[" ++ n₂ ++ "]" ++ (r ++ "[" ++ n₁ ++ "]" ++ s))).data)) [] from rfl]
  rw [hassoc, h2, replacePatterns_empty_table]

/-- Witness for C3 (amended) at concrete strings. -/
theorem replacePatterns_first_occurrence_semantics_witness :
    PatternRecognizer.replacePatterns
        ("Hi " ++ "[" ++ "a" ++ "]" ++
          (" and " ++ "[" ++ "b" ++ "]" ++ (" then " ++ "[" ++ "a" ++ "]" ++ "!")))
        [("a", "X"), ("b", "Y")] =
      "Hi " ++ "X" ++ " and " ++ "Y" ++ (" then " ++ "[" ++ "a" ++ "]" ++ "!") :=
  replacePatterns_first_occurrence_semantics "Hi " " and " " then " "!" "a" "b" "X" "Y"
    (by decide) (by decide) (by decide)

/-- C6 counterexample: `extractPatterns "abc]"` returns `["abc"]` even
though `abc` is not preceded by any `[`; the claim requires such a
substring not to be extracted, i.e. the output here to be empty. -/
theorem extractPatterns_without_opening_bracket :
    PatternRecognizer.extractPatterns "abc]" = ["abc"] ∧
    (["abc"] : List String) ≠ [] :=
  ⟨by decide, by decide⟩

/-- C6 (amended): `extractPatterns` returns the maximal nonempty runs
of non-bracket characters immediately followed by `]`, in left-to-right
order including repeats — a preceding `[` is not required (a `[` merely
discards the run accumulated so far).  Empty text yields the empty
sequence, and a segment `[n]` with `n` nonempty and bracket-free
contributes exactly `n` at its position in the scan. -/
theorem extractPatterns_followed_by_bracket_runs :
    PatternRecognizer.extractPatterns "" = [] ∧
    ∀ p n t : String, n ≠ "" → (∀ c ∈ n.data, c ≠ '[' ∧ c ≠ ']') →
      PatternRecognizer.extractPatterns (p ++ "[" ++ n ++ "]" ++ t) =
        PatternRecognizer.extractPatterns (p ++ "[") ++
          n :: PatternRecognizer.extractPatterns t := by
  refine ⟨rfl, ?_⟩
  intro p n t hn hchars
  unfold PatternRecognizer.extractPatterns
  have hdata : (p ++ "[" ++ n ++ "]" ++ t).data =
      p.data ++ '[' :: (n.data ++ ']' :: t.data) := by
    simp [String.data_append]
  have hdata2 : (p ++ "[").data = p.data ++ ['['] := by simp [String.data_append]
  rw [hdata, hdata2, extractAux_split_bracket]
  congr 1
  rw [extractAux_accumulate n.data [] (']' :: t.data) hchars, List.append_nil]
  obtain ⟨r, rs, hrs⟩ : ∃ r rs, n.data.reverse = r :: rs := by
    cases hrev : n.data.reverse with
    | nil =>
      have hd : n.data = [] := by simpa using congrArg List.reverse hrev
      exact absurd (String.ext (show n.data = ("" : String).data from hd)) hn
    | cons r rs => exact ⟨r, rs, rfl⟩
  rw [hrs, extractAux_emit]
  congr 1
  rw [← hrs]
  apply String.ext
  simp

/-- Witness for C6 (amended) at concrete strings, with a prefix that is
itself not bracket-free. -/
theorem extractPatterns_followed_by_bracket_runs_witness :
    PatternRecognizer.extractPatterns ("x]" ++ "[" ++ "n" ++ "]" ++ "[t]") =
      PatternRecognizer.extractPatterns ("x]" ++ "[") ++
        "n" :: PatternRecognizer.extractPatterns "[t]" :=
  extractPatterns_followed_by_bracket_runs.2 "x]" "n" "[t]" (by decide) (by decide)

/-- C8: `extractTemplateReferencesSlots` produces exactly one slot per
reference, keyed `STATE_NAME_KEY`, where the reference list is the
deduplicated (first-seen order) concatenation of the three field
extractors in fixed order — primary text, spoken text, then each
suggested action contributing its text then its display text in list order —
with absent fields contributing nothing; the accumulator duplication
inside the suggested-actions reducer is invisible after
deduplication. -/
theorem extractTemplateReferencesSlots_eq_spec (a : Activity) :
    ActivityUtilities.extractTemplateReferencesSlots a =
      (specExtractReferences a).map
        (fun stateName => Slot.mk Slot.STATE_NAME_KEY (.str stateName)) := by
  simp only [ActivityUtilities.extractTemplateReferencesSlots, specExtractReferences]
  rw [textInspector_eq_spec, speakInspector_eq_spec]
  unfold dedupFirst
  rw [dedupFirstAux_append_congr _ _ _
    (fun seen => suggestedActionsInspector_eq_spec a seen) []]

/-- C9: injecting an empty resolution table leaves the message
byte-for-byte identical — text, spoken text and every suggested
the text and display text of every suggested action are unchanged. -/
theorem injectResponses_empty_table (a : Activity) :
    ActivityUtilities.injectResponses a [] = a := by
  unfold ActivityUtilities.injectResponses
  rw [textInjector_empty, speakInjector_empty, suggestedActionsInjector_empty]
